import Mathlib

/-!
Verification of the iMessage-guard secure RPC gateway.

This file gives a shallow embedding, in Lean, of the security-relevant code of
the repository: the handle normalizer, the contact directory, the policy
functions of `imsg_guard.py` (single-contact mode) and `imessage_bridge.py`
(alias mode), the bridge's subprocess reader / notification buffer / request
dispatch, and a small heap model used to state frame (non-mutation) properties
of the dict-manipulating operations.

Modelling conventions:
  * JSON values are the inductive `JVal`; JSON numbers are modelled as `Int`
    (no payload relevant to the verified properties uses fractional numbers).
  * Python dicts are association lists with unique keys; `pyGet` is first-match
    lookup and `dictInsert` replaces an existing binding in place (exactly
    Python's semantics on its unique-key dicts).
  * String operations (`strip`, `lower`, `isdigit`) are modelled at ASCII
    precision, which covers every identifier format the program documents.
  * A Python statement that raises (e.g. calling `.strip()` on a non-string)
    is modelled by an explicit `raised` result constructor.
  * A line of the newline-delimited protocol is a `Line`: either `parsed v`
    (the line is valid JSON parsing to `v`) or `malformed raw` (the line
    raises `json.JSONDecodeError`); serialization `json.dumps` is abstracted
    by carrying the JSON value itself.
-/

/-- JSON values, as produced by `json.loads`. Numbers are modelled as `Int`. -/
inductive JVal where
  | null
  | bool (b : Bool)
  | num (n : Int)
  | str (s : String)
  | arr (elems : List JVal)
  | obj (entries : List (String × JVal))

/-- A Python dict holding JSON values: an association list with unique keys. -/
abbrev Dict := List (String × JVal)

/-- `d.get(k)`: first-match lookup (Python dicts have unique keys). -/
def dictGet {α : Type} (d : List (String × α)) (k : String) : Option α :=
  (d.find? (fun kv => kv.1 == k)).map (fun kv => kv.2)

/-- `k in d`. -/
def dictMem {α : Type} (d : List (String × α)) (k : String) : Bool :=
  d.any (fun kv => kv.1 == k)

/-- `d[k] = v`: replace the existing binding in place, else append. -/
def dictInsert {α : Type} (d : List (String × α)) (k : String) (v : α) :
    List (String × α) :=
  if dictMem d k then d.map (fun kv => if kv.1 == k then (k, v) else kv)
  else d ++ [(k, v)]

/-- `d.pop(k, None)`'s effect on the table: remove the binding for `k`. -/
def dictErase {α : Type} (d : List (String × α)) (k : String) :
    List (String × α) :=
  d.filter (fun kv => kv.1 != k)

/-- Python truthiness of a JSON value (`None`, `False`, `0`, `""`, `[]`, `{}`
are falsy). -/
def JVal.pyTruthy : JVal → Bool
  | .null => false
  | .bool b => b
  | .num n => n != 0
  | .str s => s ≠ ""
  | .arr l => !l.isEmpty
  | .obj l => !l.isEmpty

/-- Truthiness of `d.get(k)` where a missing key gives `None`. -/
def optTruthy (o : Option JVal) : Bool :=
  match o with
  | none => false
  | some v => v.pyTruthy

/-- Python `v == s` for a string literal `s`: true only for an equal string. -/
def jvalEqStr (v : JVal) (s : String) : Bool :=
  match v with
  | .str t => t == s
  | _ => false

/-- A Python operation that may raise an exception. -/
inductive PyResult (α : Type) where
  | raised
  | ok (val : α)

/-- Python `str.strip()` (ASCII whitespace). -/
def pyStrip (s : String) : String :=
  String.mk (((s.data.dropWhile Char.isWhitespace).reverse.dropWhile
    Char.isWhitespace).reverse)

/-- Python `str.lower()` (ASCII letters). -/
def pyLower (s : String) : String :=
  String.mk (s.data.map Char.toLower)

/-- Python `s.startswith(p)`. -/
def strStarts (s p : String) : Bool :=
  s.data.take p.data.length == p.data

/-- Python `s[n:]`. -/
def strDropN (s : String) (n : Nat) : String :=
  String.mk (s.data.drop n)

/-- The scheme-stripping loop of `normalize_handle`: each recognized scheme
is tested once, in order, against the current string. -/
def stripScheme (h0 : String) : String :=
  let h1 := if strStarts h0 "imessage:" then strDropN h0 9 else h0
  let h2 := if strStarts h1 "sms:" then strDropN h1 4 else h1
  if strStarts h2 "tel:" then strDropN h2 4 else h2

/-- The phone-shape test of `normalize_handle`:
`h.startswith("+") or (h and h[0].isdigit()) or h.startswith("(")`. -/
def phoneShaped (h : String) : Bool :=
  strStarts h "+" || (decide (h ≠ "") && (h.data.headD ' ').isDigit) ||
    strStarts h "("

/-- The digit characters of `h`: `"".join(c for c in h if c.isdigit())`. -/
def digitsOf (h : String) : String :=
  String.mk (h.data.filter Char.isDigit)

/-- US 10-digit completion: `if len(digits) == 10: digits = "1" + digits`. -/
def usDigits (d : String) : String :=
  if d.length = 10 then "1" ++ d else d

/-- `normalize_handle` — identical in `imsg_guard.py` and
`imessage_bridge.py`: trim and lowercase, strip a recognized scheme, trim
again; phone-shaped strings are reduced to `+` plus their digits (with a bare
10-digit number given a leading `1`); anything else passes through. -/
def normalize_handle (handle : String) : String :=
  let h := pyStrip (stripScheme (pyLower (pyStrip handle)))
  if phoneShaped h then
    let digits := usDigits (digitsOf h)
    if digits ≠ "" then "+" ++ digits else h
  else h

/-- The alias-mode contact directory of `imessage_bridge.py`:
`CONTACTS` (alias → real handle) and `HANDLE_TO_ALIAS` (normalized handle →
alias). -/
structure ContactsDir where
  contacts : List (String × String)
  handle_to_alias : List (String × String)

/-- One iteration of the loading loop of `load_contacts`: trim/lowercase the
alias, trim the handle, skip entries with an empty alias or handle, and
populate both maps (the fatal empty-configuration paths abort the process
before this state is used and are not modelled). -/
def loadStep (acc : ContactsDir) (p : String × String) : ContactsDir :=
  let a := pyLower (pyStrip p.1)
  let hd := pyStrip p.2
  if a = "" || hd = "" then acc
  else ContactsDir.mk (dictInsert acc.contacts a hd)
    (dictInsert acc.handle_to_alias (normalize_handle hd) a)

/-- `load_contacts` proper: fold the loading step over the raw entries in
order. -/
def load_contacts (raw : List (String × String)) : ContactsDir :=
  raw.foldl loadStep (ContactsDir.mk [] [])

/-- `resolve_alias`: exact forward lookup after trim/lowercase. -/
def resolve_alias (cdir : ContactsDir) (a : String) : Option String :=
  dictGet cdir.contacts (pyLower (pyStrip a))

/-- `resolve_handle`: normalize, then reverse lookup. -/
def resolve_handle (cdir : ContactsDir) (handle : String) : Option String :=
  dictGet cdir.handle_to_alias (normalize_handle handle)

/-- `is_known_handle`: membership of the normalized handle in the reverse
map. -/
def is_known_handle (cdir : ContactsDir) (handle : String) : Bool :=
  dictMem cdir.handle_to_alias (normalize_handle handle)

/-- The ordered candidate sender field names used by both programs. -/
def senderKeys : List String := ["sender", "handle", "from", "address"]

/-- The sender-extraction loop (`_extract_sender` in the guard, inlined in the
bridge): first key bound to a string with non-blank `strip()` wins; its
stripped value is returned, else the empty string. -/
def extractFromKeys : List String → Dict → String
  | [], _ => ""
  | k :: ks, d =>
    match dictGet d k with
    | some (.str s) => if pyStrip s ≠ "" then pyStrip s else extractFromKeys ks d
    | _ => extractFromKeys ks d

/-- Sender extraction over the full candidate key list. -/
def extractSender (d : Dict) : String :=
  extractFromKeys senderKeys d

/-- One line of the newline-delimited protocol, after `strip()`:
either valid JSON, or a line on which `json.loads` raises. -/
inductive Line where
  | malformed (raw : String)
  | parsed (msg : JVal)

/-- `d.get("id")` with JSON `null` identified with Python `None`
(both make `req_id is None` true). -/
def pyGetId (d : Dict) : Option JVal :=
  match dictGet d "id" with
  | some .null => none
  | none => none
  | some v => some v

/-- Python `str(req_id)`, the opaque stringified pending-table key, for the id
types JSON can deliver. Container ids (unusual but hashable once stringified)
are given fixed renderings. -/
def jsonIdKey : JVal → String
  | .str s => s
  | .num n => toString n
  | .bool b => if b then "True" else "False"
  | .null => "None"
  | .arr _ => "<list>"
  | .obj _ => "<dict>"

/-- `make_error_response` of the guard; the bridge builds the identical
JSON-RPC 2.0 error shape inline. -/
def make_error_response (reqId : JVal) (code : Int) (message : String) : JVal :=
  .obj [("jsonrpc", .str "2.0"), ("id", reqId),
        ("error", .obj [("code", .num code), ("message", .str message)])]

/-- `is_allowed` of `imsg_guard.py`: a handle matches the single allowed
contact iff both are non-empty and their normalized forms agree. -/
def is_allowed (allowed : String) (handle : String) : Bool :=
  if handle = "" || allowed = "" then false
  else normalize_handle handle == normalize_handle allowed

/-- `is_allowed_send` of `imsg_guard.py`, on the JSON value bound to
`params`. Faithful to the source's order of checks: the `to`-allowlist test
runs BEFORE the chat-identifier block, and a truthy non-string `to` raises
(`normalize_handle` calls `.strip()` on it). A non-dict `params` raises at
`params.get`. -/
def is_allowed_send (allowed : String) (params : JVal) : PyResult Bool :=
  match params with
  | .obj d =>
    let toV := (dictGet d "to").getD (.str "")
    let first : PyResult Bool :=
      if toV.pyTruthy then
        match toV with
        | .str s => .ok (is_allowed allowed s)
        | _ => .raised
      else .ok false
    match first with
    | .raised => .raised
    | .ok true => .ok true
    | .ok false =>
      if optTruthy (dictGet d "chat_id") || optTruthy (dictGet d "chat_guid")
          || optTruthy (dictGet d "chat_identifier") then
        .ok false
      else
        .ok false
  | _ => .raised

/-- `is_allowed_notification` of `imsg_guard.py`: accept iff a sender
extracted from the top level, or else from a nested `message` dict, matches
the allowed contact. There is no self-originated (`is_from_me`) check here. -/
def is_allowed_notification (allowed : String) (params : JVal) :
    PyResult Bool :=
  match params with
  | .obj d =>
    let sender := extractSender d
    if sender ≠ "" && is_allowed allowed sender then .ok true
    else
      match dictGet d "message" with
      | some (.obj m) =>
        let sender2 := extractSender m
        if sender2 ≠ "" && is_allowed allowed sender2 then .ok true
        else .ok false
      | some _ => .ok false
      | none => .ok false
  | _ => .raised

/-- The effect of one iteration of `proxy_stdin_to_imsg` on one input line. -/
structure GuardInStep where
  toImsg : List Line
  toStdout : List JVal
  raised : Bool

/-- One iteration of the guard's `proxy_stdin_to_imsg` loop: a line that
fails JSON parsing is forwarded VERBATIM to the subprocess; a parsed `send`
request is screened by `is_allowed_send` (blocked requests get a local error
iff they carry an id and are never forwarded); everything else passes
through. A non-dict JSON line raises (ending the proxy thread). -/
def proxy_stdin_step (allowed : String) (line : Line) : GuardInStep :=
  match line with
  | .malformed raw => GuardInStep.mk [.malformed raw] [] false
  | .parsed msg =>
    match msg with
    | .obj d =>
      let method := (dictGet d "method").getD (.str "")
      let reqId := pyGetId d
      if jvalEqStr method "send" then
        match is_allowed_send allowed ((dictGet d "params").getD (.obj [])) with
        | .raised => GuardInStep.mk [] [] true
        | .ok true => GuardInStep.mk [.parsed msg] [] false
        | .ok false =>
          match reqId with
          | some idv =>
            GuardInStep.mk []
              [make_error_response idv (-32001)
                "Blocked by imsg-guard: recipient not in allowlist"] false
          | none => GuardInStep.mk [] [] false
      else GuardInStep.mk [.parsed msg] [] false
    | _ => GuardInStep.mk [] [] true

/-- The effect of one iteration of `proxy_imsg_to_stdout` on one line. -/
structure GuardOutStep where
  toStdout : List Line
  raised : Bool

/-- Is the method one of the message-arrival kinds? Python's
`method in ("message", "new_message", "message_received")`. -/
def methodIsMessageKind (m : JVal) : Bool :=
  jvalEqStr m "message" || jvalEqStr m "new_message" ||
    jvalEqStr m "message_received"

/-- One iteration of the guard's `proxy_imsg_to_stdout` loop: malformed lines
are forwarded VERBATIM to stdout; envelopes with an id (responses) always
pass; message-kind events pass iff `is_allowed_notification`; other events
pass unchanged. -/
def proxy_imsg_step (allowed : String) (line : Line) : GuardOutStep :=
  match line with
  | .malformed raw => GuardOutStep.mk [.malformed raw] false
  | .parsed msg =>
    match msg with
    | .obj d =>
      if (pyGetId d).isSome then GuardOutStep.mk [.parsed msg] false
      else
        let method := (dictGet d "method").getD (.str "")
        if methodIsMessageKind method then
          match is_allowed_notification allowed
              ((dictGet d "params").getD (.obj [])) with
          | .raised => GuardOutStep.mk [] true
          | .ok true => GuardOutStep.mk [.parsed msg] false
          | .ok false => GuardOutStep.mk [] false
        else GuardOutStep.mk [.parsed msg] false
    | _ => GuardOutStep.mk [] true

/-- The result of `filter_send_request`: Python's `(allowed, params)` pair,
or an exception (`.strip()` on a non-string `to`, `.get` on non-dict
params). -/
inductive FilterResult where
  | raised
  | result (allowed : Bool) (params : JVal)

/-- `filter_send_request` of `imessage_bridge.py`: compute the stripped `to`
(raising on a non-string value), block indirect chat targets, block an empty
recipient, substitute a resolved alias into a shallow copy of the params,
else allow a known real handle unchanged, else block. -/
def filter_send_request (cdir : ContactsDir) (params : JVal) : FilterResult :=
  match params with
  | .obj d =>
    match (dictGet d "to").getD (.str "") with
    | .str s =>
      let toV := pyStrip s
      if optTruthy (dictGet d "chat_id") || optTruthy (dictGet d "chat_guid")
          || optTruthy (dictGet d "chat_identifier") then
        .result false params
      else if toV = "" then .result false params
      else
        match resolve_alias cdir toV with
        | some real => .result true (.obj (dictInsert d "to" (.str real)))
        | none =>
          if is_known_handle cdir toV then .result true params
          else .result false params
    | _ => .raised
  | _ => .raised

/-- The self-originated value encodings accepted by the bridge:
`from_me is True or from_me == 1 or from_me == "true" or from_me == "1"`
(Python's `True == 1` makes the boolean match both of the first two). -/
def isSelfFlag : JVal → Bool
  | .bool b => b
  | .num n => n == 1
  | .str s => s == "true" || s == "1"
  | _ => false

/-- Does `obj.get("is_from_me")` yield a self-originated marker? -/
def selfFlagged (d : Dict) : Bool :=
  match dictGet d "is_from_me" with
  | some v => isSelfFlag v
  | none => false

/-- One step of the rewrite loop of `rewrite_notification`:
`if key in d: d[key] = alias`. -/
def setKeyIfMem (d : Dict) (k : String) (a : String) : Dict :=
  if dictMem d k then dictInsert d k (.str a) else d

/-- The rewrite loop of `rewrite_notification`: for each candidate sender
key present in the dict, overwrite its value with the alias. -/
def setSenderKeys (d : Dict) (a : String) : Dict :=
  senderKeys.foldl (fun d k => setKeyIfMem d k a) d

/-- `rewrite_notification` of `imessage_bridge.py`: drop unless the nested
`message` value (defaulting to `{}`) is a dict; drop self-originated
payloads (checked on the message dict then the top level); extract a sender
(message dict first, then top level); drop unknown senders; otherwise
deep-copy the payload and overwrite every present sender field, at the
message level and the top level, with the resolved alias. The deep copy is
the identity on these immutable values; the heap model below accounts for
the mutation-freedom it buys. -/
def rewrite_notification (cdir : ContactsDir) (params : Dict) : Option Dict :=
  let msgOk : Option Dict :=
    match dictGet params "message" with
    | some (.obj m) => some m
    | some _ => none
    | none => some []
  match msgOk with
  | none => none
  | some msg =>
    if selfFlagged msg || selfFlagged params then none
    else
      let sender :=
        let s := extractSender msg
        if s = "" then extractSender params else s
      if sender = "" then none
      else
        match resolve_handle cdir sender with
        | none => none
        | some al =>
          let rw1 : Dict :=
            match dictGet params "message" with
            | some (.obj m) => dictInsert params "message" (.obj (setSenderKeys m al))
            | _ => params
          some (setSenderKeys rw1 al)

/-- `NOTIFICATION_BUFFER_MAX` of `imessage_bridge.py`. -/
def NOTIFICATION_BUFFER_MAX : Nat := 500

/-- The buffer-maintenance step of the reader: append, then keep only the
last `NOTIFICATION_BUFFER_MAX` entries
(`self.notifications = self.notifications[-NOTIFICATION_BUFFER_MAX:]`). -/
def pushNotification (buf : List JVal) (entry : JVal) : List JVal :=
  let buf := buf ++ [entry]
  if buf.length > NOTIFICATION_BUFFER_MAX then
    buf.drop (buf.length - NOTIFICATION_BUFFER_MAX)
  else buf

/-- `drain_notifications`: return the buffered entries and clear the
buffer. -/
def drain_notifications (buf : List JVal) : List JVal × List JVal :=
  (buf, [])

/-- The shared mutable state of `ImsgRpcManager` touched by the reader:
the pending-call table (key = stringified id, value = the result slot) and
the notification buffer (entries modelled by their JSON value; the source
stores `json.dumps` of it). -/
structure ReaderState where
  pending : List (String × Option JVal)
  notifications : List JVal

/-- One iteration of `ImsgRpcManager._read_stdout` on one line. Returns the
new state and whether the iteration raised (ending the reader thread).
Malformed JSON is discarded. An envelope with a non-null id that matches a
pending call resolves that call's slot. An envelope with an id that matches
NO pending call falls through to the notification logic: message-kind events
are policy-filtered, rewritten and buffered; every other envelope —
including such an unmatched response — is buffered unchanged. -/
def readerStep (cdir : ContactsDir) (st : ReaderState) (line : Line) :
    ReaderState × Bool :=
  match line with
  | .malformed _ => (st, false)
  | .parsed msg =>
    match msg with
    | .obj d =>
      let resolved : Option ReaderState :=
        match pyGetId d with
        | some v =>
          let key := jsonIdKey v
          if dictMem st.pending key then
            some (ReaderState.mk (dictInsert st.pending key (some msg))
              st.notifications)
          else none
        | none => none
      match resolved with
      | some st' => (st', false)
      | none =>
        let method := (dictGet d "method").getD (.str "")
        let params := (dictGet d "params").getD (.obj [])
        if methodIsMessageKind method then
          match params with
          | .obj pd =>
            match rewrite_notification cdir pd with
            | none => (st, false)
            | some rw =>
              let rewrittenMsg := dictInsert d "params" (.obj rw)
              (ReaderState.mk st.pending
                (pushNotification st.notifications (.obj rewrittenMsg)), false)
          | _ => (st, true)
        else
          (ReaderState.mk st.pending
            (pushNotification st.notifications (.obj d)), false)
    | _ => (st, true)

/-- The observable outcome of one `ImsgRpcManager.send_request` call: the
lines written to the subprocess stdin (by value), the dict returned to the
caller, and the pending table after the call completes. -/
structure SendOutcome where
  writes : List Dict
  response : JVal
  pending : List (String × Option JVal)

/-- `ImsgRpcManager.send_request`, sequentially: `arrived` stands for the
content of the pending entry's result slot when `event.wait` wakes
(`some r` = the reader delivered response `r` in time, `none` = timeout).
If the subprocess is not running, return a local error. A request without an
id (or with a null id) is forwarded IMMEDIATELY, unfiltered, and `{}` is
returned. Otherwise a `send` request is screened by `filter_send_request`:
a blocked request returns a local `-32001` error and writes nothing; an
allowed one has its params substituted on a copy. The pending entry is
registered under the stringified id, the line is written, and on wake-up the
entry is popped (also on timeout, which yields a local `-32000` error). -/
def send_request (cdir : ContactsDir) (procAlive : Bool)
    (pending : List (String × Option JVal)) (request : JVal)
    (arrived : Option JVal) (timeout : Nat) : PyResult SendOutcome :=
  match request with
  | .obj rq =>
    if !procAlive then
      .ok (SendOutcome.mk []
        (make_error_response ((dictGet rq "id").getD .null) (-32000)
          "imsg rpc not running") pending)
    else
      let method := (dictGet rq "method").getD (.str "")
      let params := (dictGet rq "params").getD (.obj [])
      match pyGetId rq with
      | none => .ok (SendOutcome.mk [rq] (.obj []) pending)
      | some idv =>
        let finish : Dict → PyResult SendOutcome := fun rq' =>
          let key := jsonIdKey idv
          let registered := dictInsert pending key (none : Option JVal)
          match arrived with
          | some resp => .ok (SendOutcome.mk [rq'] resp (dictErase registered key))
          | none =>
            .ok (SendOutcome.mk [rq']
              (make_error_response idv (-32000)
                ("Timeout (" ++ toString timeout ++ "s)"))
              (dictErase registered key))
        if jvalEqStr method "send" then
          match filter_send_request cdir params with
          | .raised => .raised
          | .result false _ =>
            .ok (SendOutcome.mk []
              (make_error_response idv (-32001)
                "Blocked by iMessage bridge: recipient not in contacts")
              pending)
          | .result true modified => finish (dictInsert rq "params" modified)
        else finish rq
  | _ => .raised

/-! ## Heap model

Python dicts are objects with identity; `dict(d)` makes a shallow copy,
`json.loads(json.dumps(d))` a deep copy, and `d[k] = v` mutates in place.
To state that the policy operations never mutate their inputs, the
dict-manipulating functions are embedded a second time against an explicit
store: a `Heap` is a list of dict objects addressed by index, a dict value
(`HVal`) is either an immutable JSON tree (`prim`) or a reference to a dict
object (`ref`), and allocation appends. JSON arrays are carried as `prim`
trees (none of the embedded operations reaches into an array). -/

/-- A value held in a dict: an immutable JSON tree or a dict reference. -/
inductive HVal where
  | prim (v : JVal)
  | ref (a : Nat)

/-- A dict object: its ordered key/value entries. -/
abbrev HObj := List (String × HVal)

/-- The store: dict objects addressed by position; allocation appends. -/
abbrev Heap := List HObj

/-- Dereference an address (a dangling address reads as the empty dict;
well-formed executions never produce one). -/
def heapGet (h : Heap) (a : Nat) : HObj :=
  (h[a]?).getD []

/-- Overwrite the object at address `a`. -/
def heapSet (h : Heap) (a : Nat) (o : HObj) : Heap :=
  h.set a o

/-- Python truthiness of an `HVal` (a referenced dict is truthy iff
non-empty). -/
def hvalTruthy (h : Heap) (v : HVal) : Bool :=
  match v with
  | .prim j => j.pyTruthy
  | .ref a => !(heapGet h a).isEmpty

/-- Truthiness of `d.get(k)` in the heap model. -/
def hOptTruthy (h : Heap) (o : Option HVal) : Bool :=
  match o with
  | none => false
  | some v => hvalTruthy h v

/-- Is this value the given string? -/
def hvalIsStr (v : HVal) (s : String) : Bool :=
  match v with
  | .prim (.str t) => t == s
  | _ => false

/- `json.dumps`, with fuel to rule out circular structures (on which the
real `dumps` raises): read an object graph back as a pure JSON tree. -/
mutual
def readBack : Nat → Heap → HVal → Option JVal
  | _, _, .prim j => some j
  | 0, _, .ref _ => none
  | fuel + 1, h, .ref a => (readBackEntries fuel h (heapGet h a)).map JVal.obj
  termination_by fuel _ _ => (fuel, 0)
def readBackEntries : Nat → Heap → List (String × HVal) →
    Option (List (String × JVal))
  | _, _, [] => some []
  | fuel, h, (k, v) :: rest =>
    match readBack fuel h v, readBackEntries fuel h rest with
    | some j, some es => some ((k, j) :: es)
    | _, _ => none
  termination_by fuel _ l => (fuel, l.length + 1)
end

/- `json.loads`, allocating fresh objects from address `base` upward:
returns the newly allocated objects (to be appended at `base`) and the
materialized value. -/
mutual
def writeTree (base : Nat) : JVal → List HObj × HVal
  | .obj es =>
    let r := writeEntries base es
    (r.1 ++ [r.2], .ref (base + r.1.length))
  | j => ([], .prim j)
def writeEntries (base : Nat) : List (String × JVal) → List HObj × HObj
  | [] => ([], [])
  | (k, v) :: rest =>
    let r := writeTree base v
    let r2 := writeEntries (base + r.1.length) rest
    (r.1 ++ r2.1, (k, r.2) :: r2.2)
end

/-- `json.loads(json.dumps(v))`: serialize, then materialize fresh objects
on top of the heap. `none` stands for the `ValueError` `dumps` raises on a
circular structure. -/
def deepCopyH (fuel : Nat) (h : Heap) (v : HVal) : Heap × Option HVal :=
  match readBack fuel h v with
  | none => (h, none)
  | some t =>
    let r := writeTree h.length t
    (h ++ r.1, some r.2)

/-- `filter_send_request` against the store. On the alias path the source
runs `modified = dict(params)` (a fresh shallow copy) and assigns
`modified["to"]` on the copy only. -/
def filter_send_requestH (cdir : ContactsDir) (h : Heap) (pa : HVal) :
    Heap × FilterResult × Option HVal :=
  match pa with
  | .ref a =>
    let o := heapGet h a
    match (dictGet o "to").getD (.prim (.str "")) with
    | .prim (.str s) =>
      let toV := pyStrip s
      if hOptTruthy h (dictGet o "chat_id") || hOptTruthy h (dictGet o "chat_guid")
          || hOptTruthy h (dictGet o "chat_identifier") then
        (h, .result false .null, some pa)
      else if toV = "" then (h, .result false .null, some pa)
      else
        match resolve_alias cdir toV with
        | some real =>
          let h1 := h ++ [o]
          let a' := h.length
          let h2 := heapSet h1 a' (dictInsert (heapGet h1 a') "to"
            (.prim (.str real)))
          (h2, .result true .null, some (.ref a'))
        | none =>
          if is_known_handle cdir toV then (h, .result true .null, some pa)
          else (h, .result false .null, some pa)
    | _ => (h, .raised, none)
  | _ => (h, .raised, none)

/-- Self-flag test on a stored dict (`obj.get("is_from_me")`; a referenced
dict value matches none of the accepted encodings). -/
def selfFlaggedH (o : HObj) : Bool :=
  match dictGet o "is_from_me" with
  | some (.prim v) => isSelfFlag v
  | _ => false

/-- Sender extraction on a stored dict. -/
def extractFromKeysH : List String → HObj → String
  | [], _ => ""
  | k :: ks, o =>
    match dictGet o k with
    | some (.prim (.str s)) =>
      if pyStrip s ≠ "" then pyStrip s else extractFromKeysH ks o
    | _ => extractFromKeysH ks o

/-- The in-place rewrite loop on a stored dict's entries. -/
def setSenderKeysH (o : HObj) (a : String) : HObj :=
  senderKeys.foldl
    (fun o k => if dictMem o k then dictInsert o k (.prim (.str a)) else o) o

/-- The allow-branch of `rewrite_notification` against the store: deep-copy
the payload (`json.loads(json.dumps(params))`), then overwrite the sender
fields in place on the COPY's message object and then on the copy's top
level; the original objects are never written. -/
def rewriteAllowH (al : String) (fuel : Nat) (h : Heap) (pa : HVal) :
    Heap × PyResult (Option HVal) :=
  match deepCopyH fuel h pa with
  | (h1, none) => (h1, .raised)
  | (h1, some rw) =>
    match rw with
    | .ref ra =>
      let h2 :=
        match dictGet (heapGet h1 ra) "message" with
        | some (.ref rma) =>
          heapSet h1 rma (setSenderKeysH (heapGet h1 rma) al)
        | _ => h1
      let h3 := heapSet h2 ra (setSenderKeysH (heapGet h2 ra) al)
      (h3, .ok (some (.ref ra)))
    | .prim _ => (h1, .raised)

/-- `rewrite_notification` against the store: the decision logic reads the
original objects; on allow, `rewriteAllowH` copies and rewrites. `fuel`
bounds the depth `json.dumps` may traverse. -/
def rewrite_notificationH (cdir : ContactsDir) (fuel : Nat) (h : Heap)
    (pa : HVal) : Heap × PyResult (Option HVal) :=
  match pa with
  | .ref a =>
    let o := heapGet h a
    let msgEntries : Option HObj :=
      match dictGet o "message" with
      | some (.ref ma) => some (heapGet h ma)
      | some (.prim _) => none
      | none => some []
    match msgEntries with
    | none => (h, .ok none)
    | some msgE =>
      if selfFlaggedH msgE || selfFlaggedH o then (h, .ok none)
      else
        let sender :=
          let s := extractFromKeysH senderKeys msgE
          if s = "" then extractFromKeysH senderKeys o else s
        if sender = "" then (h, .ok none)
        else
          match resolve_handle cdir sender with
          | none => (h, .ok none)
          | some al => rewriteAllowH al fuel h pa
  | .prim _ => (h, .raised)

/-- `o.get("id")` on a stored dict, identifying JSON `null` with `None`. -/
def pyGetId' (o : HObj) : Option HVal :=
  match dictGet o "id" with
  | some (.prim .null) => none
  | none => none
  | some v => some v

/-- The outcome kinds of the heap-level `send_request` (the response bodies
themselves are fully specified by the pure model above). -/
inductive SendKind where
  | notRunning
  | ack
  | blocked
  | completed (resp : JVal)
  | timedOut
  | raised

/-- The id/filter/write core of `ImsgRpcManager.send_request` against the
store: on an allowed `send`, the source runs `request = dict(request)`
(fresh shallow copy) and assigns `request["params"]` on the copy; the
original request object is never written. Returns the final heap, the lines
written (by reference, at write time), and the outcome kind. -/
def sendCoreH (cdir : ContactsDir) (h0 : Heap) (o : HObj) (ra : Nat)
    (rq params : HVal) (arrived : Option JVal) :
    Heap × List HVal × SendKind :=
  let finish : Heap → HVal → Heap × List HVal × SendKind := fun h' rq' =>
    match arrived with
    | some resp => (h', [rq'], .completed resp)
    | none => (h', [rq'], .timedOut)
  match pyGetId' o with
  | none => (h0, [rq], .ack)
  | some _ =>
    if hvalIsStr ((dictGet o "method").getD (.prim (.str ""))) "send" then
      match filter_send_requestH cdir h0 params with
      | (h1, .raised, _) => (h1, [], .raised)
      | (h1, .result false _, _) => (h1, [], .blocked)
      | (h1, .result true _, modified) =>
        let h2 := h1 ++ [heapGet h1 ra]
        let a' := h1.length
        let h3 := heapSet h2 a' (dictInsert (heapGet h2 a') "params"
          (modified.getD (.prim .null)))
        finish h3 (.ref a')
    else finish h0 rq

/-- `ImsgRpcManager.send_request` against the store, entry point: reads the
request object, materializes the default `{}` for absent params (a fresh
allocation, exactly as `request.get("params", {})` builds a new dict), and
dispatches to `sendCoreH`. -/
def send_requestH (cdir : ContactsDir) (procAlive : Bool) (h : Heap)
    (rq : HVal) (arrived : Option JVal) : Heap × List HVal × SendKind :=
  match rq with
  | .ref ra =>
    if !procAlive then (h, [], .notRunning)
    else
      let o := heapGet h ra
      let pr : Heap × HVal :=
        match dictGet o "params" with
        | some v => (h, v)
        | none => (h ++ [[]], .ref h.length)
      sendCoreH cdir pr.1 o ra rq pr.2 arrived
  | .prim _ => (h, [], .raised)


/-- "The recipient does not resolve to an approved contact" for the bridge's
alias directory: the `to` field is absent, or is a string that is neither a
configured alias nor a known real handle (a non-string `to` raises instead
of being denied and is therefore outside this predicate). -/
def recipientUnapproved (cdir : ContactsDir) (d : Dict) : Prop :=
  match dictGet d "to" with
  | none => True
  | some (.str s) =>
    resolve_alias cdir (pyStrip s) = none ∧
      is_known_handle cdir (pyStrip s) = false
  | some _ => False

/-- "The recipient does not resolve to the approved contact" for the guard:
the `to` field is absent, is a string that fails the allowlist, or is a
falsy non-string (a truthy non-string raises instead). -/
def guardRecipientUnapproved (allowed : String) (d : Dict) : Prop :=
  match dictGet d "to" with
  | none => True
  | some (.str s) => is_allowed allowed s = false
  | some v => v.pyTruthy = false

/-! ## Association-list lemmas -/

theorem dictGet_eq_none_of_not_mem {α : Type} (d : List (String × α))
    (k : String) (h : dictMem d k = false) : dictGet d k = none := by
  induction d with
  | nil => rfl
  | cons kv rest ih =>
    simp only [dictMem, List.any_cons, Bool.or_eq_false_iff] at h
    simp only [dictGet, List.find?_cons, h.1]
    exact ih (by simpa only [dictMem] using h.2)

theorem dictGet_replace_self {α : Type} (d : List (String × α)) (k : String)
    (v : α) (hm : dictMem d k = true) :
    dictGet (d.map (fun kv => if kv.1 == k then (k, v) else kv)) k = some v := by
  induction d with
  | nil => simp [dictMem] at hm
  | cons kv rest ih =>
    obtain ⟨k0, v0⟩ := kv
    by_cases hk : k0 = k
    · subst hk
      simp only [List.map_cons, beq_self_eq_true, if_true, dictGet,
        List.find?_cons]
      rfl
    · have hk' : (k0 == k) = false := by simpa using hk
      have hm' : dictMem rest k = true := by
        simpa only [dictMem, List.any_cons, hk', Bool.false_or] using hm
      simp only [List.map_cons, hk', Bool.false_eq_true, if_false, dictGet,
        List.find?_cons, hk']
      simpa only [dictGet] using ih hm'

theorem dictGet_replace_ne {α : Type} (d : List (String × α)) (k k' : String)
    (v : α) (hne : k' ≠ k) :
    dictGet (d.map (fun kv => if kv.1 == k then (k, v) else kv)) k' =
      dictGet d k' := by
  induction d with
  | nil => rfl
  | cons kv rest ih =>
    obtain ⟨k0, v0⟩ := kv
    by_cases hk : k0 = k
    · subst hk
      have h2 : (k0 == k') = false := by simp [Ne.symm hne]
      simp only [List.map_cons, beq_self_eq_true, if_true, dictGet,
        List.find?_cons, h2]
      simpa only [dictGet] using ih
    · have hk' : (k0 == k) = false := by simpa using hk
      simp only [List.map_cons, hk', Bool.false_eq_true, if_false, dictGet,
        List.find?_cons]
      by_cases hkk : k0 = k'
      · simp only [hkk, beq_self_eq_true, Option.map_some]
      · have h3 : (k0 == k') = false := by simpa using hkk
        simp only [h3]
        simpa only [dictGet] using ih

theorem dictGet_append_one_self {α : Type} (d : List (String × α))
    (k : String) (v : α) (hm : dictMem d k = false) :
    dictGet (d ++ [(k, v)]) k = some v := by
  induction d with
  | nil => simp [dictGet, List.find?_cons]
  | cons kv rest ih =>
    simp only [dictMem, List.any_cons, Bool.or_eq_false_iff] at hm
    simp only [List.cons_append, dictGet, List.find?_cons, hm.1]
    have ih' := ih (by simpa only [dictMem] using hm.2)
    simpa only [dictGet] using ih'

theorem dictGet_append_one_ne {α : Type} (d : List (String × α))
    (k k' : String) (v : α) (hne : k' ≠ k) :
    dictGet (d ++ [(k, v)]) k' = dictGet d k' := by
  induction d with
  | nil =>
    simp [dictGet, List.find?_cons, show (k == k') = false by simp [Ne.symm hne]]
  | cons kv rest ih =>
    by_cases hkk : kv.1 = k'
    · have : (kv.1 == k') = true := by simpa using hkk
      simp only [List.cons_append, dictGet, List.find?_cons, this,
        Option.map_some]
    · have h3 : (kv.1 == k') = false := by simpa using hkk
      simp only [List.cons_append, dictGet, List.find?_cons, h3]
      simpa only [dictGet] using ih

theorem dictGet_insert_self {α : Type} (d : List (String × α)) (k : String)
    (v : α) : dictGet (dictInsert d k v) k = some v := by
  unfold dictInsert
  by_cases hm : dictMem d k
  · simpa only [hm, if_true] using dictGet_replace_self d k v hm
  · have hm' : dictMem d k = false := by simpa using hm
    simpa only [hm', Bool.false_eq_true, if_false] using
      dictGet_append_one_self d k v hm'

theorem dictGet_insert_ne {α : Type} (d : List (String × α)) (k k' : String)
    (v : α) (hne : k' ≠ k) : dictGet (dictInsert d k v) k' = dictGet d k' := by
  unfold dictInsert
  by_cases hm : dictMem d k
  · simpa only [hm, if_true] using dictGet_replace_ne d k k' v hne
  · have hm' : dictMem d k = false := by simpa using hm
    simpa only [hm', Bool.false_eq_true, if_false] using
      dictGet_append_one_ne d k k' v hne

theorem filter_replace_erase {α : Type} (d : List (String × α)) (k : String)
    (v : α) :
    (d.map (fun kv => if kv.1 == k then (k, v) else kv)).filter
        (fun kv => kv.1 != k) =
      d.filter (fun kv => kv.1 != k) := by
  induction d with
  | nil => rfl
  | cons kv rest ih =>
    obtain ⟨k0, v0⟩ := kv
    by_cases hk : k0 = k
    · subst hk
      simp only [List.map_cons, beq_self_eq_true, if_true, List.filter_cons,
        bne_self_eq_false, Bool.false_eq_true, if_false]
      exact ih
    · have hk' : (k0 == k) = false := by simpa using hk
      have hb : (k0 != k) = true := by simp [bne, hk']
      simp only [List.map_cons, hk', Bool.false_eq_true, if_false,
        List.filter_cons, hb, if_true]
      exact congrArg _ ih

theorem dictErase_insert {α : Type} (d : List (String × α)) (k : String)
    (v : α) : dictErase (dictInsert d k v) k = dictErase d k := by
  unfold dictInsert dictErase
  by_cases hm : dictMem d k
  · simpa only [hm, if_true] using filter_replace_erase d k v
  · have hm' : dictMem d k = false := by simpa using hm
    simp [hm', List.filter_append]

/-! ## Rewrite-loop lemmas -/

theorem setKeyIfMem_get_self (d : Dict) (k : String) (a : String) (v : JVal)
    (h : dictGet (setKeyIfMem d k a) k = some v) : v = .str a := by
  unfold setKeyIfMem at h
  by_cases hm : dictMem d k
  · rw [if_pos hm, dictGet_insert_self] at h
    exact (Option.some_inj.mp h).symm
  · have hm' : dictMem d k = false := by simpa using hm
    rw [if_neg (by simp [hm']), dictGet_eq_none_of_not_mem d k hm'] at h
    cases h

theorem setKeyIfMem_get_ne (d : Dict) (k k' : String) (a : String)
    (hne : k' ≠ k) : dictGet (setKeyIfMem d k a) k' = dictGet d k' := by
  unfold setKeyIfMem
  by_cases hm : dictMem d k
  · rw [if_pos hm, dictGet_insert_ne _ _ _ _ hne]
  · rw [if_neg hm]

theorem setSenderKeys_unfold (d : Dict) (a : String) :
    setSenderKeys d a =
      setKeyIfMem (setKeyIfMem (setKeyIfMem (setKeyIfMem d "sender" a)
        "handle" a) "from" a) "address" a := by
  rfl

theorem setSenderKeys_get_sender_key (d : Dict) (a : String) (k : String)
    (hk : k ∈ senderKeys) (v : JVal)
    (h : dictGet (setSenderKeys d a) k = some v) : v = .str a := by
  rw [setSenderKeys_unfold] at h
  have hk' : k = "sender" ∨ k = "handle" ∨ k = "from" ∨ k = "address" := by
    simpa [senderKeys] using hk
  rcases hk' with rfl | rfl | rfl | rfl
  · rw [setKeyIfMem_get_ne _ _ _ _ (by decide),
      setKeyIfMem_get_ne _ _ _ _ (by decide),
      setKeyIfMem_get_ne _ _ _ _ (by decide)] at h
    exact setKeyIfMem_get_self _ _ _ _ h
  · rw [setKeyIfMem_get_ne _ _ _ _ (by decide),
      setKeyIfMem_get_ne _ _ _ _ (by decide)] at h
    exact setKeyIfMem_get_self _ _ _ _ h
  · rw [setKeyIfMem_get_ne _ _ _ _ (by decide)] at h
    exact setKeyIfMem_get_self _ _ _ _ h
  · exact setKeyIfMem_get_self _ _ _ _ h

theorem setSenderKeys_get_other (d : Dict) (a : String) (k : String)
    (h1 : k ≠ "sender") (h2 : k ≠ "handle") (h3 : k ≠ "from")
    (h4 : k ≠ "address") : dictGet (setSenderKeys d a) k = dictGet d k := by
  rw [setSenderKeys_unfold, setKeyIfMem_get_ne _ _ _ _ h4,
    setKeyIfMem_get_ne _ _ _ _ h3, setKeyIfMem_get_ne _ _ _ _ h2,
    setKeyIfMem_get_ne _ _ _ _ h1]

/-! ## Notification-buffer lemmas -/

theorem pushNotification_eq (buf : List JVal) (x : JVal) :
    pushNotification buf x =
      if buf.length + 1 > NOTIFICATION_BUFFER_MAX then
        (buf ++ [x]).drop (buf.length + 1 - NOTIFICATION_BUFFER_MAX)
      else buf ++ [x] := by
  simp [pushNotification]

theorem pushNotification_length_le (buf : List JVal) (x : JVal)
    (hb : buf.length ≤ NOTIFICATION_BUFFER_MAX) :
    (pushNotification buf x).length ≤ NOTIFICATION_BUFFER_MAX := by
  rw [pushNotification_eq]
  by_cases h : buf.length + 1 > NOTIFICATION_BUFFER_MAX
  · rw [if_pos h]
    simp only [List.length_drop, List.length_append, List.length_cons,
      List.length_nil]
    omega
  · rw [if_neg h]
    simp only [List.length_append, List.length_cons, List.length_nil]
    omega

theorem foldl_pushNotification (xs : List JVal) :
    ∀ (buf : List JVal), buf.length ≤ NOTIFICATION_BUFFER_MAX →
      xs.foldl pushNotification buf =
        (buf ++ xs).drop (buf.length + xs.length - NOTIFICATION_BUFFER_MAX) := by
  induction xs with
  | nil =>
    intro buf hb
    simp only [List.foldl_nil, List.append_nil, List.length_nil]
    rw [show buf.length + 0 - NOTIFICATION_BUFFER_MAX = 0 from by omega,
      List.drop_zero]
  | cons x xs ih =>
    intro buf hb
    rw [List.foldl_cons, ih (pushNotification buf x)
      (pushNotification_length_le buf x hb), pushNotification_eq]
    by_cases h : buf.length + 1 > NOTIFICATION_BUFFER_MAX
    · rw [if_pos h]
      have h1 : buf.length + 1 - NOTIFICATION_BUFFER_MAX = 1 := by omega
      rw [h1]
      have hdl : ((buf ++ [x]).drop 1).length = NOTIFICATION_BUFFER_MAX := by
        simp only [List.length_drop, List.length_append, List.length_cons,
          List.length_nil]
        omega
      rw [hdl]
      have h2 : (buf ++ [x]).drop 1 ++ xs = ((buf ++ [x]) ++ xs).drop 1 :=
        (List.drop_append_of_le_length (by
          simp only [List.length_append, List.length_cons, List.length_nil]
          omega)).symm
      rw [h2, List.drop_drop]
      have h3 : (buf ++ [x]) ++ xs = buf ++ x :: xs := by simp
      rw [h3]
      have h4 : 1 + (NOTIFICATION_BUFFER_MAX + xs.length -
          NOTIFICATION_BUFFER_MAX) =
          buf.length + (x :: xs).length - NOTIFICATION_BUFFER_MAX := by
        simp only [List.length_cons]
        omega
      rw [h4]
    · rw [if_neg h]
      have h3 : (buf ++ [x]) ++ xs = buf ++ x :: xs := by simp
      rw [h3]
      have h4 : (buf ++ [x]).length + xs.length - NOTIFICATION_BUFFER_MAX =
          buf.length + (x :: xs).length - NOTIFICATION_BUFFER_MAX := by
        simp only [List.length_append, List.length_cons, List.length_nil]
        omega
      rw [h4]

/-! ## Heap frame lemmas: the embedded operations only allocate fresh
objects and write at fresh addresses, so every pre-existing object is
untouched. -/

theorem writeTree_ref_inv (t : JVal) (base : Nat) (ra : Nat)
    (h : (writeTree base t).2 = .ref ra) :
    ∃ es, t = .obj es ∧ ra = base + (writeEntries base es).1.length ∧
      (writeTree base t).1 =
        (writeEntries base es).1 ++ [(writeEntries base es).2] := by
  cases t with
  | obj es =>
    refine ⟨es, rfl, ?_, ?_⟩
    · simpa [writeTree] using h.symm
    · simp [writeTree]
  | null => simp [writeTree] at h
  | bool b => simp [writeTree] at h
  | num n => simp [writeTree] at h
  | str s => simp [writeTree] at h
  | arr l => simp [writeTree] at h

theorem writeEntries_mem_ge (es : List (String × JVal)) :
    ∀ (base : Nat) (k : String) (ra : Nat),
      (k, HVal.ref ra) ∈ (writeEntries base es).2 → base ≤ ra := by
  induction es with
  | nil => intro base k ra hmem; simp [writeEntries] at hmem
  | cons p rest ih =>
    intro base k ra hmem
    obtain ⟨k0, v0⟩ := p
    simp only [writeEntries, List.mem_cons] at hmem
    rcases hmem with h1 | h2
    · have hrt : (writeTree base v0).2 = .ref ra := by
        have := congrArg Prod.snd h1
        simpa using this.symm
      obtain ⟨es', _, hra, _⟩ := writeTree_ref_inv v0 base ra hrt
      omega
    · have := ih (base + (writeTree base v0).1.length) k ra h2
      omega

theorem dictGet_mem {α : Type} (d : List (String × α)) (k : String) (v : α)
    (h : dictGet d k = some v) : ∃ k0, (k0, v) ∈ d := by
  unfold dictGet at h
  cases hf : d.find? (fun kv => kv.1 == k) with
  | none => rw [hf] at h; cases h
  | some kv =>
    rw [hf] at h
    have hv : kv.2 = v := by simpa using h
    have hmem := List.mem_of_find?_eq_some hf
    exact ⟨kv.1, by rw [← hv]; simpa using hmem⟩

theorem deepCopyH_fst (fuel : Nat) (h : Heap) (v : HVal) :
    ∃ ext, (deepCopyH fuel h v).1 = h ++ ext := by
  unfold deepCopyH
  cases hrb : readBack fuel h v with
  | none => exact ⟨[], by simp⟩
  | some t => exact ⟨(writeTree h.length t).1, by simp⟩

theorem deepCopyH_frame (fuel : Nat) (h : Heap) (v : HVal) (i : Nat)
    (hi : i < h.length) : ((deepCopyH fuel h v).1)[i]? = h[i]? := by
  obtain ⟨ext, hext⟩ := deepCopyH_fst fuel h v
  rw [hext, List.getElem?_append_left hi]

theorem deepCopyH_len (fuel : Nat) (h : Heap) (v : HVal) :
    h.length ≤ (deepCopyH fuel h v).1.length := by
  obtain ⟨ext, hext⟩ := deepCopyH_fst fuel h v
  rw [hext]
  simp

theorem deepCopyH_ref_facts (fuel : Nat) (h : Heap) (v : HVal) (ra : Nat)
    (hres : (deepCopyH fuel h v).2 = some (.ref ra)) :
    h.length ≤ ra ∧
      ∀ k rma, (k, HVal.ref rma) ∈ heapGet (deepCopyH fuel h v).1 ra →
        h.length ≤ rma := by
  unfold deepCopyH at hres ⊢
  cases hrb : readBack fuel h v with
  | none => rw [hrb] at hres; dsimp only at hres; cases hres
  | some t =>
    rw [hrb] at hres
    dsimp only at hres ⊢
    have hrt : (writeTree h.length t).2 = .ref ra := by
      simpa using hres
    obtain ⟨es, hes, hra, hobjs⟩ := writeTree_ref_inv t h.length ra hrt
    constructor
    · omega
    · intro k rma hmem
      have hat : heapGet (h ++ (writeTree h.length t).1) ra =
          (writeEntries h.length es).2 := by
        unfold heapGet
        rw [hobjs, hra]
        rw [List.getElem?_append_right (by omega)]
        rw [show h.length + (writeEntries h.length es).1.length - h.length =
          (writeEntries h.length es).1.length from by omega]
        rw [List.getElem?_append_right (by omega)]
        simp
      rw [hat] at hmem
      exact writeEntries_mem_ge es h.length k rma hmem

theorem filter_send_requestH_frame (cdir : ContactsDir) (h : Heap) (pa : HVal)
    (i : Nat) (hi : i < h.length) :
    ((filter_send_requestH cdir h pa).1)[i]? = h[i]? := by
  unfold filter_send_requestH
  cases pa with
  | prim j => rfl
  | ref a =>
    dsimp only
    split
    · split
      · rfl
      · split
        · rfl
        · split
          · unfold heapSet
            rw [List.getElem?_set_ne (by omega),
              List.getElem?_append_left hi]
          · split <;> rfl
    · rfl

theorem filter_send_requestH_len (cdir : ContactsDir) (h : Heap) (pa : HVal) :
    h.length ≤ (filter_send_requestH cdir h pa).1.length := by
  unfold filter_send_requestH
  cases pa with
  | prim j => simp
  | ref a =>
    dsimp only
    split
    · split
      · simp
      · split
        · simp
        · split
          · unfold heapSet
            simp
          · split <;> simp
    · simp

theorem rewriteAllowH_frame (al : String) (fuel : Nat) (h : Heap) (pa : HVal)
    (i : Nat) (hi : i < h.length) :
    ((rewriteAllowH al fuel h pa).1)[i]? = h[i]? := by
  unfold rewriteAllowH
  rcases hdc : deepCopyH fuel h pa with ⟨h1, copy⟩
  have hframe : h1[i]? = h[i]? := by
    have := deepCopyH_frame fuel h pa i hi
    rw [hdc] at this
    exact this
  cases copy with
  | none => exact hframe
  | some rw' =>
    cases rw' with
    | prim j => exact hframe
    | ref ra =>
      have hfacts := deepCopyH_ref_facts fuel h pa ra (by rw [hdc])
      rw [hdc] at hfacts
      dsimp only
      have hra : h.length ≤ ra := hfacts.1
      split
      · rename_i rma heq
        have hrma : h.length ≤ rma := by
          obtain ⟨k0, hk0⟩ := dictGet_mem _ _ _ heq
          exact hfacts.2 k0 rma hk0
        unfold heapSet
        rw [List.getElem?_set_ne (by omega), List.getElem?_set_ne (by omega)]
        exact hframe
      · unfold heapSet
        rw [List.getElem?_set_ne (by omega)]
        exact hframe

theorem rewrite_notificationH_frame (cdir : ContactsDir) (fuel : Nat)
    (h : Heap) (pa : HVal) (i : Nat) (hi : i < h.length) :
    ((rewrite_notificationH cdir fuel h pa).1)[i]? = h[i]? := by
  unfold rewrite_notificationH
  cases pa with
  | prim j => rfl
  | ref a =>
    dsimp only
    repeat' split
    any_goals rfl
    all_goals exact rewriteAllowH_frame _ fuel h _ i hi

theorem sendCoreH_frame (cdir : ContactsDir) (h0 : Heap) (o : HObj) (ra : Nat)
    (rq params : HVal) (arrived : Option JVal) (i : Nat) (hi : i < h0.length) :
    ((sendCoreH cdir h0 o ra rq params arrived).1)[i]? = h0[i]? := by
  unfold sendCoreH
  dsimp only
  split
  · rfl
  · split
    · split
      · rename_i heq
        have hfr := filter_send_requestH_frame cdir h0 params i hi
        rw [heq] at hfr
        exact hfr
      · rename_i heq
        have hfr := filter_send_requestH_frame cdir h0 params i hi
        rw [heq] at hfr
        exact hfr
      · rename_i h1 pv modified heq
        have hfr := filter_send_requestH_frame cdir h0 params i hi
        have hlen := filter_send_requestH_len cdir h0 params
        rw [heq] at hfr hlen
        dsimp only at hfr hlen ⊢
        have hset : ∀ (ov : HObj),
            ((heapSet (h1 ++ [heapGet h1 ra]) h1.length ov))[i]? = h0[i]? := by
          intro ov
          unfold heapSet
          rw [List.getElem?_set_ne (by omega),
            List.getElem?_append_left (by omega)]
          exact hfr
        cases arrived with
        | some resp => exact hset _
        | none => exact hset _
    · cases arrived with
      | some resp => rfl
      | none => rfl

theorem send_requestH_frame (cdir : ContactsDir) (procAlive : Bool) (h : Heap)
    (rq : HVal) (arrived : Option JVal) (i : Nat) (hi : i < h.length) :
    ((send_requestH cdir procAlive h rq arrived).1)[i]? = h[i]? := by
  unfold send_requestH
  cases rq with
  | prim j => rfl
  | ref ra =>
    dsimp only
    split
    · rfl
    · split
      · rename_i v heq
        exact sendCoreH_frame cdir h _ ra _ v arrived i hi
      · have hcore := sendCoreH_frame cdir (h ++ [[]]) (heapGet h ra) ra
          (.ref ra) (.ref h.length) arrived i
          (by simp only [List.length_append, List.length_cons,
            List.length_nil]; omega)
        rw [List.getElem?_append_left hi] at hcore
        exact hcore

/-! ## Contact-directory lemmas -/

theorem load_fold_contacts_preserve (l : List (String × String)) :
    ∀ (acc : ContactsDir) (k : String),
      (∀ p ∈ l, pyLower (pyStrip p.1) ≠ k) →
      dictGet (l.foldl loadStep acc).contacts k = dictGet acc.contacts k := by
  induction l with
  | nil => intro acc k _; rfl
  | cons p rest ih =>
    intro acc k hk
    rw [List.foldl_cons, ih _ k (fun q hq => hk q (List.mem_cons_of_mem _ hq))]
    unfold loadStep
    dsimp only
    split
    · rfl
    · exact dictGet_insert_ne _ _ _ _ (Ne.symm (hk p (List.mem_cons_self _ _)))

theorem load_fold_h2a_preserve (l : List (String × String)) :
    ∀ (acc : ContactsDir) (k : String),
      (∀ p ∈ l, normalize_handle (pyStrip p.2) ≠ k) →
      dictGet (l.foldl loadStep acc).handle_to_alias k =
        dictGet acc.handle_to_alias k := by
  induction l with
  | nil => intro acc k _; rfl
  | cons p rest ih =>
    intro acc k hk
    rw [List.foldl_cons, ih _ k (fun q hq => hk q (List.mem_cons_of_mem _ hq))]
    unfold loadStep
    dsimp only
    split
    · rfl
    · exact dictGet_insert_ne _ _ _ _ (Ne.symm (hk p (List.mem_cons_self _ _)))

/-! ## Denial lemmas for the policy functions -/

theorem filter_send_request_denied (cdir : ContactsDir) (d : Dict)
    (hrec : recipientUnapproved cdir d) :
    filter_send_request cdir (.obj d) = .result false (.obj d) := by
  unfold recipientUnapproved at hrec
  unfold filter_send_request
  cases hto : dictGet d "to" with
  | none =>
    simp only [hto, Option.getD]
    split
    · rfl
    · rw [if_pos (show pyStrip "" = "" from rfl)]
  | some v =>
    rw [hto] at hrec
    cases v with
    | str s =>
      simp only [hto, Option.getD]
      split
      · rfl
      · split
        · rfl
        · rw [hrec.1]
          simp [hrec.2]
    | null => cases hrec
    | bool b => cases hrec
    | num n => cases hrec
    | arr l => cases hrec
    | obj o => cases hrec

theorem is_allowed_send_denied (allowed : String) (d : Dict)
    (hrec : guardRecipientUnapproved allowed d) :
    is_allowed_send allowed (.obj d) = .ok false := by
  unfold guardRecipientUnapproved at hrec
  cases hto : dictGet d "to" with
  | none => simp [is_allowed_send, hto, JVal.pyTruthy]
  | some v =>
    rw [hto] at hrec
    cases v with
    | str s =>
      by_cases hs : s = ""
      · simp [is_allowed_send, hto, JVal.pyTruthy, hs]
      · simp [is_allowed_send, hto, JVal.pyTruthy, hs, hrec]
    | null => simp [is_allowed_send, hto, JVal.pyTruthy]
    | bool b =>
      simp only [JVal.pyTruthy] at hrec
      simp [is_allowed_send, hto, JVal.pyTruthy, hrec]
    | num n =>
      simp only [JVal.pyTruthy] at hrec
      simp [is_allowed_send, hto, JVal.pyTruthy, hrec]
    | arr l =>
      simp only [JVal.pyTruthy] at hrec
      simp [is_allowed_send, hto, JVal.pyTruthy, hrec]
    | obj o =>
      simp only [JVal.pyTruthy] at hrec
      simp [is_allowed_send, hto, JVal.pyTruthy, hrec]

/-! ## Claim C1 -/

/-- C1 counterexample: the claim "for every send request whose recipient does
not resolve to an approved contact, nothing is ever written to the
messaging-engine subprocess" is FALSE for the bridge. A `send` request
carrying no id takes `send_request`'s fire-and-forget path, which forwards
it to the subprocess verbatim — before the policy filter runs. With contacts
`{"noah": "+15551234567"}` and recipient `+19995550000` (not a contact), the
request is written to the subprocess stdin. -/
theorem claim1_counterexample :
    send_request (load_contacts [("noah", "+15551234567")]) true []
      (.obj [("method", .str "send"),
             ("params", .obj [("to", .str "+19995550000")])]) none 15 =
    .ok (SendOutcome.mk
      [[("method", .str "send"),
        ("params", .obj [("to", .str "+19995550000")])]]
      (.obj []) []) := by
  rfl

/-- C1 (amended): for every `send` request CARRYING A NON-NULL ID whose
recipient does not resolve to an approved contact, the bridge's
`send_request` writes nothing to the subprocess and returns a locally
synthesized error carrying that id and the blocked-by-policy code `-32001`,
leaving the pending table unchanged; the guard's stdin proxy never forwards
any blocked `send` request (with or without an id) and emits the `-32001`
error exactly when the request carries an id. Send requests without an id
are forwarded unfiltered by the bridge (see the counterexample). -/
theorem claim1_theorem :
    (∀ (cdir : ContactsDir) (pending : List (String × Option JVal))
        (rq : Dict) (idv : JVal) (d : Dict) (arrived : Option JVal)
        (timeout : Nat),
      pyGetId rq = some idv →
      (dictGet rq "method").getD (.str "") = .str "send" →
      (dictGet rq "params").getD (.obj []) = .obj d →
      recipientUnapproved cdir d →
      send_request cdir true pending (.obj rq) arrived timeout =
        .ok (SendOutcome.mk []
          (make_error_response idv (-32001)
            "Blocked by iMessage bridge: recipient not in contacts")
          pending)) ∧
    (∀ (allowed : String) (rq : Dict) (d : Dict),
      (dictGet rq "method").getD (.str "") = .str "send" →
      (dictGet rq "params").getD (.obj []) = .obj d →
      guardRecipientUnapproved allowed d →
      proxy_stdin_step allowed (.parsed (.obj rq)) =
        GuardInStep.mk []
          (match pyGetId rq with
           | some idv =>
             [make_error_response idv (-32001)
               "Blocked by imsg-guard: recipient not in allowlist"]
           | none => []) false) := by
  constructor
  · intro cdir pending rq idv d arrived timeout hid hmethod hparams hrec
    have hfil := filter_send_request_denied cdir d hrec
    unfold send_request
    simp only [Bool.not_true, Bool.false_eq_true, if_false, hid, hmethod,
      hparams, hfil, jvalEqStr, beq_self_eq_true, if_true]
  · intro allowed rq d hmethod hparams hrec
    have hfil := is_allowed_send_denied allowed d hrec
    unfold proxy_stdin_step
    simp only [hmethod, hparams, hfil, jvalEqStr, beq_self_eq_true, if_true]
    cases hpid : pyGetId rq with
    | some idv => rfl
    | none => rfl

/-- C1 witness: the amended theorem applied to concrete inputs — contacts
`{"noah": "+15551234567"}`, blocked recipient `+19995550000`, bridge request
id 7 and guard request id 2. -/
theorem claim1_witness :
    send_request (load_contacts [("noah", "+15551234567")]) true []
      (.obj [("id", .num 7), ("method", .str "send"),
             ("params", .obj [("to", .str "+19995550000")])]) none 15 =
      .ok (SendOutcome.mk []
        (make_error_response (.num 7) (-32001)
          "Blocked by iMessage bridge: recipient not in contacts") []) ∧
    proxy_stdin_step "+15551234567"
      (.parsed (.obj [("id", .num 2), ("method", .str "send"),
        ("params", .obj [("to", .str "+19995550000")])])) =
      GuardInStep.mk []
        [make_error_response (.num 2) (-32001)
          "Blocked by imsg-guard: recipient not in allowlist"] false := by
  constructor
  · exact claim1_theorem.1 (load_contacts [("noah", "+15551234567")]) []
      [("id", .num 7), ("method", .str "send"),
       ("params", .obj [("to", .str "+19995550000")])]
      (.num 7) [("to", .str "+19995550000")] none 15 rfl rfl rfl
      (show _ ∧ _ from ⟨rfl, rfl⟩)
  · exact claim1_theorem.2 "+15551234567"
      [("id", .num 2), ("method", .str "send"),
       ("params", .obj [("to", .str "+19995550000")])]
      [("to", .str "+19995550000")] rfl rfl rfl

/-! ## Claim C2 -/

/-- C2 (code bug): the guard's `is_allowed_send` tests the `to` allowlist
BEFORE the categorical chat-identifier block, so a request that names the
allowed contact in `to` while ALSO carrying `chat_id` is allowed and
forwarded (chat identifier included) — although both the module docstring
and the function's own docstring state that chat_id/chat_guid/
chat_identifier targets are blocked because the recipient cannot be
verified. Evaluation at the failing input: allowed contact `+15551234567`,
params `{"to": "+15551234567", "chat_id": 42}` yields `allowed = True`.
(The bridge's `filter_send_request` performs the chat check first and is not
affected.) -/
theorem claim2_theorem :
    is_allowed_send "+15551234567"
      (.obj [("to", .str "+15551234567"), ("chat_id", .num 42)]) =
      .ok true := by
  rfl

/-! ## Claim C3 -/

/-- C3: in alias mode, every payload that `rewrite_notification` allows is
rewritten so that EVERY present sender field (`sender`, `handle`, `from`,
`address`) — both on the nested `message` object and at the top level —
holds exactly the resolved alias of the extracted sender (so the original
real identifier never appears at those occurrence points unless it is
itself the alias); and, in the heap model, the rewrite operates on a deep
copy: every pre-existing heap object is unchanged by
`rewrite_notificationH`. -/
theorem claim3_theorem :
    (∀ (cdir : ContactsDir) (params rw : Dict),
      rewrite_notification cdir params = some rw →
      ∃ al,
        (∃ sender, sender ≠ "" ∧ resolve_handle cdir sender = some al) ∧
        (∀ k, k ∈ senderKeys → ∀ v, dictGet rw k = some v → v = .str al) ∧
        (∀ m, dictGet rw "message" = some (.obj m) →
          ∀ k, k ∈ senderKeys → ∀ v, dictGet m k = some v → v = .str al)) ∧
    (∀ (cdir : ContactsDir) (fuel : Nat) (h : Heap) (pa : HVal) (i : Nat),
      i < h.length →
      ((rewrite_notificationH cdir fuel h pa).1)[i]? = h[i]?) := by
  constructor
  · intro cdir params rw heq
    unfold rewrite_notification at heq
    cases hmsg : dictGet params "message" with
    | some v =>
      cases v with
      | obj m0 =>
        simp only [hmsg] at heq
        split at heq
        · cases heq
        · by_cases hs : extractSender m0 = ""
          · rw [show (if extractSender m0 = "" then extractSender params
                else extractSender m0) = extractSender params
                from if_pos hs] at heq
            by_cases hp : extractSender params = ""
            · rw [if_pos hp] at heq
              cases heq
            · rw [if_neg hp] at heq
              cases hrh : resolve_handle cdir (extractSender params) with
              | none => rw [hrh] at heq; cases heq
              | some al =>
                rw [hrh] at heq
                have hrw : rw = setSenderKeys
                    (dictInsert params "message"
                      (.obj (setSenderKeys m0 al))) al :=
                  (Option.some_inj.mp heq).symm
                refine ⟨al, ⟨_, hp, hrh⟩, ?_, ?_⟩
                · intro k hk v hv
                  rw [hrw] at hv
                  exact setSenderKeys_get_sender_key _ _ _ hk _ hv
                · intro m hm k hk v hv
                  rw [hrw, setSenderKeys_get_other _ _ _ (by decide)
                    (by decide) (by decide) (by decide),
                    dictGet_insert_self] at hm
                  have hmm : m = setSenderKeys m0 al :=
                    JVal.obj.inj (Option.some_inj.mp hm).symm
                  rw [hmm] at hv
                  exact setSenderKeys_get_sender_key _ _ _ hk _ hv
          · rw [show (if extractSender m0 = "" then extractSender params
                else extractSender m0) = extractSender m0
                from if_neg hs, if_neg hs] at heq
            cases hrh : resolve_handle cdir (extractSender m0) with
            | none => rw [hrh] at heq; cases heq
            | some al =>
              rw [hrh] at heq
              have hrw : rw = setSenderKeys
                  (dictInsert params "message"
                    (.obj (setSenderKeys m0 al))) al :=
                (Option.some_inj.mp heq).symm
              refine ⟨al, ⟨_, hs, hrh⟩, ?_, ?_⟩
              · intro k hk v hv
                rw [hrw] at hv
                exact setSenderKeys_get_sender_key _ _ _ hk _ hv
              · intro m hm k hk v hv
                rw [hrw, setSenderKeys_get_other _ _ _ (by decide)
                  (by decide) (by decide) (by decide),
                  dictGet_insert_self] at hm
                have hmm : m = setSenderKeys m0 al :=
                  JVal.obj.inj (Option.some_inj.mp hm).symm
                rw [hmm] at hv
                exact setSenderKeys_get_sender_key _ _ _ hk _ hv
      | null => simp only [hmsg] at heq; cases heq
      | bool b => simp only [hmsg] at heq; cases heq
      | num n => simp only [hmsg] at heq; cases heq
      | str s => simp only [hmsg] at heq; cases heq
      | arr l => simp only [hmsg] at heq; cases heq
    | none =>
      simp only [hmsg] at heq
      split at heq
      · cases heq
      · rw [show (if extractSender ([] : Dict) = "" then extractSender params
            else extractSender ([] : Dict)) = extractSender params
            from if_pos rfl] at heq
        by_cases hp : extractSender params = ""
        · rw [if_pos hp] at heq
          cases heq
        · rw [if_neg hp] at heq
          cases hrh : resolve_handle cdir (extractSender params) with
          | none => rw [hrh] at heq; cases heq
          | some al =>
            rw [hrh] at heq
            have hrw : rw = setSenderKeys params al :=
              (Option.some_inj.mp heq).symm
            refine ⟨al, ⟨_, hp, hrh⟩, ?_, ?_⟩
            · intro k hk v hv
              rw [hrw] at hv
              exact setSenderKeys_get_sender_key _ _ _ hk _ hv
            · intro m hm k hk v hv
              rw [hrw, setSenderKeys_get_other _ _ _ (by decide) (by decide)
                (by decide) (by decide), hmsg] at hm
              cases hm
  · intro cdir fuel h pa i hi
    exact rewrite_notificationH_frame cdir fuel h pa i hi

/-- C3 witness: the theorem applied to contacts `{"noah": "+15551234567"}`,
an inbound payload with sender `+15551234567` in both the nested message and
a top-level `handle` field, and a one-object heap. -/
theorem claim3_witness :
    (∃ al,
      (∃ sender, sender ≠ "" ∧
        resolve_handle (load_contacts [("noah", "+15551234567")]) sender =
          some al) ∧
      (∀ k, k ∈ senderKeys → ∀ v,
        dictGet [("message", JVal.obj [("sender", JVal.str "noah"),
          ("text", JVal.str "hi")]), ("handle", JVal.str "noah")] k =
            some v → v = .str al) ∧
      (∀ m, dictGet [("message", JVal.obj [("sender", JVal.str "noah"),
          ("text", JVal.str "hi")]), ("handle", JVal.str "noah")] "message" =
            some (.obj m) →
        ∀ k, k ∈ senderKeys → ∀ v, dictGet m k = some v → v = .str al)) ∧
    ((rewrite_notificationH (load_contacts [("noah", "+15551234567")]) 5
      [[("sender", HVal.prim (.str "+15551234567"))]] (.ref 0)).1)[0]? =
      [[("sender", HVal.prim (.str "+15551234567"))]][0]? := by
  constructor
  · exact claim3_theorem.1 (load_contacts [("noah", "+15551234567")])
      [("message", .obj [("sender", .str "+15551234567"),
        ("text", .str "hi")]), ("handle", .str "+15551234567")]
      [("message", .obj [("sender", .str "noah"), ("text", .str "hi")]),
       ("handle", .str "noah")] rfl
  · exact claim3_theorem.2 (load_contacts [("noah", "+15551234567")]) 5
      [[("sender", HVal.prim (.str "+15551234567"))]] (.ref 0) 0
      (by decide)

/-! ## Claim C4 -/

/-- C4 counterexample: the claim "authorize_event drops every event marked
self-originated, for every sender, including approved senders" is FALSE for
the guard. `is_allowed_notification` performs NO `is_from_me` check, so a
self-marked message event whose sender field names the allowed contact is
forwarded to stdout by `proxy_imsg_to_stdout`. -/
theorem claim4_counterexample :
    proxy_imsg_step "+15551234567"
      (.parsed (.obj [("method", .str "message"),
        ("params", .obj [("is_from_me", .bool true),
          ("sender", .str "+15551234567")])])) =
    GuardOutStep.mk
      [.parsed (.obj [("method", .str "message"),
        ("params", .obj [("is_from_me", .bool true),
          ("sender", .str "+15551234567")])])] false := by
  rfl

/-- C4 (amended): the BRIDGE's `rewrite_notification` drops every payload
marked self-originated — `is_from_me` bound, at the top level or on the
nested message dict, to any of the encodings `true`, `1`, `"true"`, `"1"` —
regardless of the sender and of the contact directory; the guard performs no
such check (see the counterexample). -/
theorem claim4_theorem (cdir : ContactsDir) (params : Dict)
    (hflag :
      (∃ v, dictGet params "is_from_me" = some v ∧ isSelfFlag v = true) ∨
      (∃ m v, dictGet params "message" = some (.obj m) ∧
        dictGet m "is_from_me" = some v ∧ isSelfFlag v = true)) :
    rewrite_notification cdir params = none := by
  unfold rewrite_notification
  cases hmsg : dictGet params "message" with
  | none =>
    rcases hflag with ⟨v, hv, hf⟩ | ⟨m, v, hm, _, _⟩
    · have hsp : selfFlagged params = true := by
        unfold selfFlagged
        rw [hv]
        exact hf
      have hcond : (selfFlagged ([] : Dict) || selfFlagged params) = true := by
        rw [hsp]
        simp
      simp only [hmsg, hcond, if_true]
    · rw [hmsg] at hm; cases hm
  | some w =>
    cases w with
    | obj m0 =>
      rcases hflag with ⟨v, hv, hf⟩ | ⟨m, v, hm, hmv, hf⟩
      · have hsp : selfFlagged params = true := by
          unfold selfFlagged
          rw [hv]
          exact hf
        have hcond : (selfFlagged m0 || selfFlagged params) = true := by
          rw [hsp]
          simp
        simp only [hmsg, hcond, if_true]
      · rw [hmsg] at hm
        have hmm : m0 = m := JVal.obj.inj (Option.some_inj.mp hm)
        have hsm : selfFlagged m0 = true := by
          unfold selfFlagged
          rw [hmm, hmv]
          exact hf
        have hcond : (selfFlagged m0 || selfFlagged params) = true := by
          rw [hsm]
          simp
        simp only [hmsg, hcond, if_true]
    | null => simp [hmsg]
    | bool b => simp [hmsg]
    | num n => simp [hmsg]
    | str s => simp [hmsg]
    | arr l => simp [hmsg]

/-- C4 witness: the amended theorem applied to a payload from an approved
contact with a nested `is_from_me: 1` marker. -/
theorem claim4_witness :
    rewrite_notification (load_contacts [("noah", "+15551234567")])
      [("message", .obj [("is_from_me", .num 1),
        ("sender", .str "+15551234567")])] = none := by
  exact claim4_theorem (load_contacts [("noah", "+15551234567")])
    [("message", .obj [("is_from_me", .num 1),
      ("sender", .str "+15551234567")])]
    (Or.inr ⟨[("is_from_me", .num 1), ("sender", .str "+15551234567")],
      .num 1, rfl, rfl, rfl⟩)

/-! ## Claim C5 -/

/-- C5 counterexample: the claim "a response whose id matches no pending
call is simply discarded by the reader ... and does not appear in any
subsequent notification drain" is FALSE. The reader's unmatched-id path
falls through to the notification logic, and a response (no `method` field)
takes the pass-through branch: it is appended to the notification buffer and
returned by the next drain. Evaluated at a late response with id 5 against
an empty pending table. -/
theorem claim5_counterexample :
    readerStep (load_contacts [("noah", "+15551234567")])
      (ReaderState.mk [] [])
      (.parsed (.obj [("id", .num 5), ("result", .str "late")])) =
      (ReaderState.mk []
        [.obj [("id", .num 5), ("result", .str "late")]], false) ∧
    drain_notifications [.obj [("id", .num 5), ("result", .str "late")]] =
      ([.obj [("id", .num 5), ("result", .str "late")]], []) := by
  exact ⟨rfl, rfl⟩

/-- C5 (amended): when a call times out, `send_request` synthesizes a local
`-32000` timeout error and its pending entry is removed — the final pending
table is the original with the call's key erased (no leak). This covers
every call that can time out: both non-`send` calls and allowed `send`
calls (a blocked send returns immediately without registering a pending
entry, and a raised filter propagates the exception before registration).
A late response whose id matches no pending entry resolves no pending call
(the table is untouched, so it is never delivered to any caller as a call
response), but it is NOT discarded: the bridge reader appends it to the
notification buffer via the pass-through branch, and it is returned by the
next drain. -/
theorem claim5_theorem :
    (∀ (cdir : ContactsDir) (pending : List (String × Option JVal))
        (rq : Dict) (idv : JVal) (timeout : Nat),
      pyGetId rq = some idv →
      jvalEqStr ((dictGet rq "method").getD (.str "")) "send" = false →
      send_request cdir true pending (.obj rq) none timeout =
        .ok (SendOutcome.mk [rq]
          (make_error_response idv (-32000)
            ("Timeout (" ++ toString timeout ++ "s)"))
          (dictErase pending (jsonIdKey idv)))) ∧
    (∀ (cdir : ContactsDir) (pending : List (String × Option JVal))
        (rq : Dict) (idv : JVal) (modified : JVal) (timeout : Nat),
      pyGetId rq = some idv →
      jvalEqStr ((dictGet rq "method").getD (.str "")) "send" = true →
      filter_send_request cdir ((dictGet rq "params").getD (.obj [])) =
        .result true modified →
      send_request cdir true pending (.obj rq) none timeout =
        .ok (SendOutcome.mk [dictInsert rq "params" modified]
          (make_error_response idv (-32000)
            ("Timeout (" ++ toString timeout ++ "s)"))
          (dictErase pending (jsonIdKey idv)))) ∧
    (∀ (cdir : ContactsDir) (st : ReaderState) (d : Dict) (idv : JVal),
      pyGetId d = some idv →
      dictMem st.pending (jsonIdKey idv) = false →
      methodIsMessageKind ((dictGet d "method").getD (.str "")) = false →
      readerStep cdir st (.parsed (.obj d)) =
        (ReaderState.mk st.pending
          (pushNotification st.notifications (.obj d)), false)) ∧
    (∀ (buf : List JVal) (x : JVal),
      x ∈ (drain_notifications (pushNotification buf x)).1) := by
  refine ⟨?_, ?_, ?_, ?_⟩
  · intro cdir pending rq idv timeout hid hmethod
    unfold send_request
    simp only [Bool.not_true, Bool.false_eq_true, if_false, hid, hmethod,
      dictErase_insert]
  · intro cdir pending rq idv modified timeout hid hmethod hfil
    unfold send_request
    simp only [Bool.not_true, Bool.false_eq_true, if_false, hid, hmethod,
      hfil, eq_self_iff_true, if_true, dictErase_insert]
  · intro cdir st d idv hid hmem hmethod
    unfold readerStep
    simp only [hid, hmem, Bool.false_eq_true, if_false, hmethod]
  · intro buf x
    unfold drain_notifications pushNotification
    dsimp only
    split
    · rename_i hgt
      have hle : buf.length + 1 - NOTIFICATION_BUFFER_MAX ≤ buf.length := by
        unfold NOTIFICATION_BUFFER_MAX at *
        simp only [List.length_append, List.length_cons, List.length_nil] at hgt
        omega
      rw [show (buf ++ [x]).length - NOTIFICATION_BUFFER_MAX =
          buf.length + 1 - NOTIFICATION_BUFFER_MAX from by
        simp only [List.length_append, List.length_cons, List.length_nil],
        List.drop_append_of_le_length hle]
      exact List.mem_append_right _ (List.mem_singleton.mpr rfl)
    · exact List.mem_append_right _ (List.mem_singleton.mpr rfl)

/-- C5 witness: the amended theorem applied to a `messages.list` call with
id 9 that times out, an ALLOWED `send` call with id 3 (recipient alias
`noah`, substituted to `+15551234567`) that times out, a reader state with
an empty pending table receiving a late response with id 9, and a buffer
receiving that response. -/
theorem claim5_witness :
    send_request (load_contacts [("noah", "+15551234567")]) true
      [("9", none)] (.obj [("id", .num 9), ("method", .str "messages.list")])
      none 15 =
      .ok (SendOutcome.mk [[("id", .num 9), ("method", .str "messages.list")]]
        (make_error_response (.num 9) (-32000)
          ("Timeout (" ++ toString 15 ++ "s)"))
        (dictErase [("9", (none : Option JVal))] (jsonIdKey (.num 9)))) ∧
    send_request (load_contacts [("noah", "+15551234567")]) true
      [("3", none)] (.obj [("id", .num 3), ("method", .str "send"),
        ("params", .obj [("to", .str "noah")])]) none 15 =
      .ok (SendOutcome.mk
        [[("id", .num 3), ("method", .str "send"),
          ("params", .obj [("to", .str "+15551234567")])]]
        (make_error_response (.num 3) (-32000)
          ("Timeout (" ++ toString 15 ++ "s)"))
        (dictErase [("3", (none : Option JVal))] (jsonIdKey (.num 3)))) ∧
    readerStep (load_contacts [("noah", "+15551234567")])
      (ReaderState.mk [] [])
      (.parsed (.obj [("id", .num 9), ("result", .str "late")])) =
      (ReaderState.mk []
        (pushNotification [] (.obj [("id", .num 9),
          ("result", .str "late")])), false) ∧
    JVal.obj [("id", .num 9), ("result", .str "late")] ∈
      (drain_notifications (pushNotification []
        (.obj [("id", .num 9), ("result", .str "late")]))).1 := by
  refine ⟨?_, ?_, ?_, ?_⟩
  · exact claim5_theorem.1 (load_contacts [("noah", "+15551234567")])
      [("9", none)] [("id", .num 9), ("method", .str "messages.list")]
      (.num 9) 15 rfl rfl
  · exact claim5_theorem.2.1 (load_contacts [("noah", "+15551234567")])
      [("3", none)] [("id", .num 3), ("method", .str "send"),
        ("params", .obj [("to", .str "noah")])]
      (.num 3) (.obj [("to", .str "+15551234567")]) 15 rfl rfl rfl
  · exact claim5_theorem.2.2.1 (load_contacts [("noah", "+15551234567")])
      (ReaderState.mk [] []) [("id", .num 9), ("result", .str "late")]
      (.num 9) rfl rfl rfl
  · exact claim5_theorem.2.2.2 []
      (.obj [("id", .num 9), ("result", .str "late")])

/-! ## Claim C6 -/

/-- C6 counterexample: the claim "every line that fails to parse as JSON is
discarded without being forwarded in either direction" is FALSE for the
guard. `proxy_stdin_to_imsg` forwards a malformed client line VERBATIM to
the subprocess stdin (and `proxy_imsg_to_stdout` likewise forwards malformed
subprocess lines to stdout). Evaluated on the non-JSON line
`this is not json`. -/
theorem claim6_counterexample :
    proxy_stdin_step "+15551234567" (.malformed "this is not json") =
      GuardInStep.mk [.malformed "this is not json"] [] false := by
  rfl

/-- C6 (amended): a line that fails to parse as JSON never terminates a
reader and is never answered; the BRIDGE's subprocess reader discards it
entirely, while the GUARD forwards it verbatim in the corresponding
direction (stdin → subprocess, subprocess → stdout). -/
theorem claim6_theorem :
    (∀ (cdir : ContactsDir) (st : ReaderState) (raw : String),
      readerStep cdir st (.malformed raw) = (st, false)) ∧
    (∀ (allowed : String) (raw : String),
      proxy_stdin_step allowed (.malformed raw) =
        GuardInStep.mk [.malformed raw] [] false) ∧
    (∀ (allowed : String) (raw : String),
      proxy_imsg_step allowed (.malformed raw) =
        GuardOutStep.mk [.malformed raw] false) := by
  exact ⟨fun _ _ _ => rfl, fun _ _ => rfl, fun _ _ => rfl⟩

/-! ## Claim C7 -/

/-- C7: with the notification buffer's capacity of 500, pushing
`capacity + k` entries (k ≥ 1) into the empty buffer retains exactly the
last `capacity` entries in arrival order (`xs.drop k`); `drain` returns all
buffered entries in order and clears the buffer, so an immediately
following drain returns the empty sequence. -/
theorem claim7_theorem (xs : List JVal) (k : Nat) (hk : 1 ≤ k)
    (hlen : xs.length = NOTIFICATION_BUFFER_MAX + k) :
    xs.foldl pushNotification [] = xs.drop k ∧
    drain_notifications (xs.foldl pushNotification []) = (xs.drop k, []) ∧
    drain_notifications
      ((drain_notifications (xs.foldl pushNotification [])).2) = ([], []) := by
  have h := foldl_pushNotification xs []
    (by simp [NOTIFICATION_BUFFER_MAX])
  rw [List.nil_append, List.length_nil, Nat.zero_add, hlen] at h
  rw [show NOTIFICATION_BUFFER_MAX + k - NOTIFICATION_BUFFER_MAX = k from by
    omega] at h
  exact ⟨h, by rw [h]; rfl, by rw [h]; rfl⟩

set_option maxRecDepth 8000 in
/-- C7 witness: the theorem applied to the 501 entries `num 0 .. num 500`
with `k = 1` (the hypotheses are discharged by computation; the presence of
`hk : 1 ≤ k` makes this the required closed instantiation). -/
theorem claim7_witness :
    ((List.range 501).map (fun n => JVal.num n)).foldl pushNotification [] =
      ((List.range 501).map (fun n => JVal.num n)).drop 1 ∧
    drain_notifications
        (((List.range 501).map (fun n => JVal.num n)).foldl
          pushNotification []) =
      (((List.range 501).map (fun n => JVal.num n)).drop 1, []) ∧
    drain_notifications
      ((drain_notifications
        (((List.range 501).map (fun n => JVal.num n)).foldl
          pushNotification [])).2) = ([], []) := by
  exact claim7_theorem ((List.range 501).map (fun n => JVal.num n)) 1
    (by decide) (by rfl)

/-! ## Claim C8 -/

/-- C8 counterexample: the alias/handle round trip FAILS when two configured
handles collide after normalization. With contacts
`{"a": "5551234567", "b": "+15551234567"}` both handles normalize to
`+15551234567`, the later entry overwrites the reverse mapping, and the
alias `a` — although still mapped forward to `5551234567` — reverse-resolves
to `b` instead of `a`. -/
theorem claim8_counterexample :
    resolve_alias
      (load_contacts [("a", "5551234567"), ("b", "+15551234567")]) "a" =
      some "5551234567" ∧
    resolve_handle
      (load_contacts [("a", "5551234567"), ("b", "+15551234567")])
      "5551234567" = some "b" := by
  exact ⟨rfl, rfl⟩

/-- C8 (amended): provided the loaded entries have non-empty keys, pairwise
distinct trimmed/lowercased aliases, and pairwise distinct NORMALIZED
handles, the round trip holds, insensitively to case and whitespace in the
lookup arguments: `resolve_alias` returns the trimmed stored handle for any
spelling of the alias, and `resolve_handle` returns the trimmed/lowercased
alias for any spelling of the handle. (Without distinctness of the
normalized handles, a later entry overwrites the reverse mapping — see the
counterexample.) -/
theorem claim8_theorem (raw : List (String × String)) (a h a' h' : String)
    (hmem : (a, h) ∈ raw)
    (hkept : ∀ p ∈ raw, pyLower (pyStrip p.1) ≠ "" ∧ pyStrip p.2 ≠ "")
    (hA : (raw.map (fun p => pyLower (pyStrip p.1))).Nodup)
    (hH : (raw.map (fun p => normalize_handle (pyStrip p.2))).Nodup)
    (ha' : pyLower (pyStrip a') = pyLower (pyStrip a))
    (hh' : normalize_handle h' = normalize_handle (pyStrip h)) :
    resolve_alias (load_contacts raw) a' = some (pyStrip h) ∧
    resolve_handle (load_contacts raw) h' = some (pyLower (pyStrip a)) := by
  obtain ⟨l1, l2, rfl⟩ := List.append_of_mem hmem
  have hkeep := hkept (a, h) (by simp)
  have hstep : loadStep (l1.foldl loadStep (ContactsDir.mk [] [])) (a, h) =
      ContactsDir.mk
        (dictInsert (l1.foldl loadStep (ContactsDir.mk [] [])).contacts
          (pyLower (pyStrip a)) (pyStrip h))
        (dictInsert
          (l1.foldl loadStep (ContactsDir.mk [] [])).handle_to_alias
          (normalize_handle (pyStrip h)) (pyLower (pyStrip a))) := by
    unfold loadStep
    rw [if_neg]
    simp only [Bool.or_eq_true, decide_eq_true_eq, not_or]
    exact ⟨hkeep.1, hkeep.2⟩
  have hA2 : ∀ q ∈ l2, pyLower (pyStrip q.1) ≠ pyLower (pyStrip a) := by
    intro q hq hcontra
    rw [List.map_append, List.map_cons] at hA
    have h2 := (List.nodup_cons.mp (hA.of_append_right)).1
    exact h2 (hcontra ▸ List.mem_map_of_mem _ hq)
  have hH2 : ∀ q ∈ l2,
      normalize_handle (pyStrip q.2) ≠ normalize_handle (pyStrip h) := by
    intro q hq hcontra
    rw [List.map_append, List.map_cons] at hH
    have h2 := (List.nodup_cons.mp (hH.of_append_right)).1
    exact h2 (hcontra ▸ List.mem_map_of_mem _ hq)
  constructor
  · unfold resolve_alias load_contacts
    rw [List.foldl_append, List.foldl_cons, ha',
      load_fold_contacts_preserve l2 _ _ hA2, hstep]
    exact dictGet_insert_self _ _ _
  · unfold resolve_handle load_contacts
    rw [List.foldl_append, List.foldl_cons, hh',
      load_fold_h2a_preserve l2 _ _ hH2, hstep]
    exact dictGet_insert_self _ _ _

/-- C8 witness: the amended theorem applied to the contacts
`{"Noah": "+1 (555) 123-4567", "alice": "alice@icloud.com"}` with the
sloppy lookup arguments `"  NOAH "` and `"tel:+15551234567"`. -/
theorem claim8_witness :
    resolve_alias
      (load_contacts [("Noah", "+1 (555) 123-4567"),
        ("alice", "alice@icloud.com")]) "  NOAH " =
      some (pyStrip "+1 (555) 123-4567") ∧
    resolve_handle
      (load_contacts [("Noah", "+1 (555) 123-4567"),
        ("alice", "alice@icloud.com")]) "tel:+15551234567" =
      some (pyLower (pyStrip "Noah")) := by
  exact claim8_theorem
    [("Noah", "+1 (555) 123-4567"), ("alice", "alice@icloud.com")]
    "Noah" "+1 (555) 123-4567" "  NOAH " "tel:+15551234567"
    (by simp) (by decide) (by decide) (by decide) (by decide) (by decide)

/-! ## Claim C9 -/

/-- C9: `normalize_handle` is a total Lean function (never raises, by
construction), the three spec examples `"(555) 123-4567"`, `"5551234567"` and
`"tel:+15551234567"` all normalize to `"+15551234567"`, and in general any
two strings that the algorithm recognizes as phone-shaped (after trimming,
lowercasing and scheme-stripping) and whose US-completed digit strings are
equal and non-empty normalize to the same canonical value — equality is
insensitive to scheme prefixes, punctuation, and the 10- vs 11-digit US
form. -/
theorem claim9_theorem :
    normalize_handle "(555) 123-4567" = "+15551234567" ∧
    normalize_handle "5551234567" = "+15551234567" ∧
    normalize_handle "tel:+15551234567" = "+15551234567" ∧
    (∀ s1 s2 : String,
      phoneShaped (pyStrip (stripScheme (pyLower (pyStrip s1)))) = true →
      phoneShaped (pyStrip (stripScheme (pyLower (pyStrip s2)))) = true →
      usDigits (digitsOf (pyStrip (stripScheme (pyLower (pyStrip s1))))) ≠
        "" →
      usDigits (digitsOf (pyStrip (stripScheme (pyLower (pyStrip s1))))) =
        usDigits (digitsOf (pyStrip (stripScheme (pyLower (pyStrip s2))))) →
      normalize_handle s1 = normalize_handle s2) := by
  refine ⟨by rfl, by rfl, by rfl, ?_⟩
  intro s1 s2 hp1 hp2 hne hdig
  have e1 : normalize_handle s1 =
      if phoneShaped (pyStrip (stripScheme (pyLower (pyStrip s1)))) = true
      then
        (if usDigits (digitsOf (pyStrip (stripScheme (pyLower
            (pyStrip s1))))) ≠ "" then
          "+" ++ usDigits (digitsOf (pyStrip (stripScheme (pyLower
            (pyStrip s1)))))
        else pyStrip (stripScheme (pyLower (pyStrip s1))))
      else pyStrip (stripScheme (pyLower (pyStrip s1))) := rfl
  have e2 : normalize_handle s2 =
      if phoneShaped (pyStrip (stripScheme (pyLower (pyStrip s2)))) = true
      then
        (if usDigits (digitsOf (pyStrip (stripScheme (pyLower
            (pyStrip s2))))) ≠ "" then
          "+" ++ usDigits (digitsOf (pyStrip (stripScheme (pyLower
            (pyStrip s2)))))
        else pyStrip (stripScheme (pyLower (pyStrip s2))))
      else pyStrip (stripScheme (pyLower (pyStrip s2))) := rfl
  rw [e1, e2, if_pos hp1, if_pos hp2, if_pos hne,
    if_pos (show usDigits (digitsOf (pyStrip (stripScheme (pyLower
      (pyStrip s2))))) ≠ "" from hdig ▸ hne), hdig]

/-- C9 witness: the theorem's general clause applied to `"5551234567"` and
`"tel:+1 555 123 4567"`, two spellings of the same US number. -/
theorem claim9_witness :
    normalize_handle "5551234567" = normalize_handle "tel:+1 555 123 4567" := by
  exact claim9_theorem.2.2.2 "5551234567" "tel:+1 555 123 4567"
    (by decide) (by decide) (by decide) (by decide)

/-! ## Claim C10 -/

/-- C10: in the heap model, the policy operations never mutate their inputs:
`filter_send_requestH` (shallow copy then assign on the copy),
`rewrite_notificationH` (deep copy then in-place rewrite on the copy) and
`send_requestH` (shallow copy of the request, params substituted on the
copy) leave every pre-existing heap object — in particular the caller's
params and request dicts and everything they reference — exactly as it
was. -/
theorem claim10_theorem :
    (∀ (cdir : ContactsDir) (h : Heap) (pa : HVal) (i : Nat), i < h.length →
      ((filter_send_requestH cdir h pa).1)[i]? = h[i]?) ∧
    (∀ (cdir : ContactsDir) (fuel : Nat) (h : Heap) (pa : HVal) (i : Nat),
      i < h.length →
      ((rewrite_notificationH cdir fuel h pa).1)[i]? = h[i]?) ∧
    (∀ (cdir : ContactsDir) (procAlive : Bool) (h : Heap) (rq : HVal)
        (arrived : Option JVal) (i : Nat), i < h.length →
      ((send_requestH cdir procAlive h rq arrived).1)[i]? = h[i]?) := by
  refine ⟨?_, ?_, ?_⟩
  · intro cdir h pa i hi
    exact filter_send_requestH_frame cdir h pa i hi
  · intro cdir fuel h pa i hi
    exact rewrite_notificationH_frame cdir fuel h pa i hi
  · intro cdir procAlive h rq arrived i hi
    exact send_requestH_frame cdir procAlive h rq arrived i hi

/-- C10 witness: the theorem applied, with contacts
`{"noah": "+15551234567"}`, to a params object that takes the alias-rewrite
path of the send filter, an inbound payload with a nested message object
that takes the deep-copy-and-rewrite path, and a full send request whose
params are substituted on a copy; each original heap object is read back
unchanged. -/
theorem claim10_witness :
    ((filter_send_requestH (load_contacts [("noah", "+15551234567")])
      [[("to", HVal.prim (.str "noah"))]] (.ref 0)).1)[0]? =
      [[("to", HVal.prim (.str "noah"))]][0]? ∧
    ((rewrite_notificationH (load_contacts [("noah", "+15551234567")]) 5
      [[("message", HVal.ref 1)], [("sender", HVal.prim
        (.str "+15551234567"))]] (.ref 0)).1)[1]? =
      [[("message", HVal.ref 1)], [("sender", HVal.prim
        (.str "+15551234567"))]][1]? ∧
    ((send_requestH (load_contacts [("noah", "+15551234567")]) true
      [[("id", HVal.prim (.num 1)), ("method", HVal.prim (.str "send")),
        ("params", HVal.ref 1)], [("to", HVal.prim (.str "noah"))]]
      (.ref 0) none).1)[1]? =
      [[("id", HVal.prim (.num 1)), ("method", HVal.prim (.str "send")),
        ("params", HVal.ref 1)], [("to", HVal.prim (.str "noah"))]][1]? := by
  refine ⟨?_, ?_, ?_⟩
  · exact claim10_theorem.1 (load_contacts [("noah", "+15551234567")])
      [[("to", HVal.prim (.str "noah"))]] (.ref 0) 0 (by decide)
  · exact claim10_theorem.2.1 (load_contacts [("noah", "+15551234567")]) 5
      [[("message", HVal.ref 1)], [("sender", HVal.prim
        (.str "+15551234567"))]] (.ref 0) 1 (by decide)
  · exact claim10_theorem.2.2 (load_contacts [("noah", "+15551234567")])
      true
      [[("id", HVal.prim (.num 1)), ("method", HVal.prim (.str "send")),
        ("params", HVal.ref 1)], [("to", HVal.prim (.str "noah"))]]
      (.ref 0) none 1 (by decide)
